import Mathlib

/-!
Shallow embedding of `src/dice.py` (a provably-fair non-transitive dice game)
and proofs of the specification claims about it.

Modelling conventions:
* Python `bytes` values are `List Nat` (byte sequences).
* The SHA3-256 hex digest (`hashlib.sha3_256(...).hexdigest()`) is modelled as
  an arbitrary function `H : List Nat → String`; every property proved here
  holds for any such function, in particular for SHA3-256.
* `secrets.randbelow n` draws a uniform value in `[0, n)` and raises
  `ValueError` when `n ≤ 0`; we model the draw by passing the raw random
  value `r : Nat` explicitly (hypotheses `r < n` stand for the library's
  guarantee) and the error by an `Except` result.
* Fallible Python code (raised exceptions) is modelled with `Except String`.
* Interactive input loops consume an explicit list of user-input tokens.
-/

namespace DiceGame

/-- Python `str(value).encode()`: the ASCII bytes of the decimal
representation of an integer (with a leading minus sign when negative). -/
def decimalBytes (value : Int) : List Nat :=
  (toString value).toList.map Char.toNat

/-- `hmac.compare_digest` on two hex strings: a constant-time equality check;
functionally it returns `true` iff the strings are equal. -/
def compare_digest (a b : String) : Bool :=
  a == b

/-- `CommitmentScheme.create_commitment` (src/dice.py lines 13-27): the digest
is the hash of `str(value).encode() + nonce + key`; returns
`(nonce, key, commitment)`.  The randomly drawn `nonce` and `key` are passed
in explicitly. -/
def create_commitment (H : List Nat → String) (value : Int)
    (nonce key : List Nat) : List Nat × List Nat × String :=
  (nonce, key, H (decimalBytes value ++ nonce ++ key))

/-- `CommitmentScheme.verify_commitment` (src/dice.py lines 29-34):
recomputes the hash over the same concatenation and compares it with the
published commitment using `hmac.compare_digest`. -/
def verify_commitment (H : List Nat → String) (value : Int)
    (nonce key : List Nat) (commitment : String) : Bool :=
  compare_digest commitment (H (decimalBytes value ++ nonce ++ key))

/-- `secrets.randbelow n` with the raw draw `r` made explicit: raises
`ValueError("Upper bound must be positive.")` when `n ≤ 0`, otherwise
returns the draw. -/
def randbelow (n : Int) (r : Nat) : Except String Int :=
  if n ≤ 0 then .error "Upper bound must be positive."
  else .ok (r : Int)

/-- `FairRandomGenerator.generate_random_value` (src/dice.py lines 48-56):
`secrets.randbelow(range_end - range_start + 1) + range_start`.
Only the numeric value is modelled here; the accompanying commitment is
`create_commitment` above. -/
def generate_random_value (range_start range_end : Int) (r : Nat) :
    Except String Int :=
  (randbelow (range_end - range_start + 1) r).map (· + range_start)

/-- The `Dice` class (src/dice.py lines 36-45): an ordered list of integer
faces; the constructor enforces exactly 6 faces. -/
structure Dice where
  values : List Int
  len6 : values.length = 6
deriving DecidableEq

/-- The `Dice.__init__` validation (src/dice.py lines 37-42) as a fallible
constructor: rejects any face list whose length is not 6.  (The
`isinstance(x, int)` check is vacuous in this typed model.) -/
def Dice.init (values : List Int) : Except String Dice :=
  if h : values.length = 6 then .ok ⟨values, h⟩
  else .error "Each die must have exactly 6 values"

/-- The win counter inside `Game.calculate_win_probability`
(src/dice.py line 238): `sum(1 for v1 in dice1.values for v2 in dice2.values
if v1 > v2)`. -/
def winCount (vs ws : List Int) : Nat :=
  (vs.map (fun v1 => (ws.filter (fun v2 => v1 > v2)).length)).sum

/-- `Game.calculate_win_probability` (src/dice.py lines 236-240), with the
floating-point division modelled exactly over the rationals:
`wins / (len(dice1.values) * len(dice2.values))`. -/
def calculate_win_probability (dice1 dice2 : Dice) : ℚ :=
  (winCount dice1.values dice2.values : ℚ) /
    ((dice1.values.length : ℚ) * (dice2.values.length : ℚ))

/-- A user input token at a dice-selection prompt, as classified by
`Game.get_user_dice_choice` (src/dice.py lines 185-205): `"x"` exits,
`"?"` shows help, a string accepted by Python `int` gives a number, anything
else is invalid input. -/
inductive UserInput where
  | exit
  | help
  | num (n : Int)
  | invalid
deriving DecidableEq

/-- `Game.get_user_dice_choice` (src/dice.py lines 185-205) over an explicit
stream of input tokens.  For a numeric token the code computes
`choice = int(user_input) - 1`, rejects it (printing an error and
re-prompting) when it equals the excluded index, returns it when
`0 <= choice < len(self.dice_list)`, and re-prompts otherwise.  `none`
models `sys.exit` / an exhausted input stream (the loop never returning). -/
def get_user_dice_choice (diceLen : Nat) (exclude : Option Int) :
    List UserInput → Option Int
  | [] => none
  | .exit :: _ => none
  | .help :: rest => get_user_dice_choice diceLen exclude rest
  | .invalid :: rest => get_user_dice_choice diceLen exclude rest
  | .num n :: rest =>
      let choice : Int := n - 1
      if exclude = some choice then get_user_dice_choice diceLen exclude rest
      else if 0 ≤ choice ∧ choice < (diceLen : Int) then some choice
      else get_user_dice_choice diceLen exclude rest

/-- The computer's selectable dice indices in `Game.computer_turn`
(src/dice.py line 150): `[i for i in range(len(self.dice_list)) if i != exclude]`. -/
def available_indices (diceLen : Nat) (exclude : Option Int) : List Nat :=
  (List.range diceLen).filter (fun i => ¬ exclude = some (i : Int))

/-- The outcome printed by `Game.determine_winner` (src/dice.py lines
207-214): user wins iff `user_roll > computer_roll`, computer wins iff
`user_roll < computer_roll`, tie otherwise. -/
inductive GameResult where
  | userWins
  | computerWins
  | tie
deriving DecidableEq

/-- `Game.determine_winner` (src/dice.py lines 207-214). -/
def determine_winner (user_roll computer_roll : Int) : GameResult :=
  if user_roll > computer_roll then .userWins
  else if user_roll < computer_roll then .computerWins
  else .tie

/-- The value a turn hands back to `Game.play`: both `Game.user_turn`
(src/dice.py lines 120-146) and `Game.computer_turn` (lines 148-175) verify
the roll commitment and, on failure, print a warning and return `-1`; on
success they return `selected_dice.values[roll]` with `roll` drawn from
`[0, 5]`. -/
def turn_value (selected_dice : Dice) (roll : Fin 6) (verifyOk : Bool) : Int :=
  if verifyOk then selected_dice.values.get (roll.cast selected_dice.len6.symm)
  else -1

/-- How a round of `Game.play` (src/dice.py lines 69-97) ends: either the
early `return` after a failed first-mover commitment verification (line 86),
or a call to `determine_winner` (line 97). -/
inductive RoundOutcome where
  | aborted
  | decided (result : GameResult)
deriving DecidableEq

/-- The oracle outcomes consumed by one round of `Game.play`: the committed
first-player bit and its verification result, the user's guess, the die and
roll of each party, and the verification result of each roll commitment. -/
structure PlayTrace where
  first_player : Fin 2
  fmVerifyOk : Bool
  user_guess : Fin 2
  userDie : Dice
  userRoll : Fin 6
  userVerifyOk : Bool
  compDie : Dice
  compRoll : Fin 6
  compVerifyOk : Bool

/-- `Game.play` (src/dice.py lines 69-97) as a function of the trace: if the
first-mover commitment fails verification the round is aborted (line 86);
otherwise the guess decides who moves first, both parties take their turn
(dice selection is modelled separately), and `determine_winner` is called on
the two returned values — including the sentinel `-1` a turn returns after
its own failed verification. -/
def play (t : PlayTrace) : RoundOutcome :=
  if t.fmVerifyOk = false then .aborted
  else if t.user_guess = t.first_player then
    let user_roll := turn_value t.userDie t.userRoll t.userVerifyOk
    let computer_roll := turn_value t.compDie t.compRoll t.compVerifyOk
    .decided (determine_winner user_roll computer_roll)
  else
    let computer_roll := turn_value t.compDie t.compRoll t.compVerifyOk
    let user_roll := turn_value t.userDie t.userRoll t.userVerifyOk
    .decided (determine_winner user_roll computer_roll)

/-- A `Dice` object together with its Python object identity.  The `Dice`
class defines no `__eq__`, so the comparison `user_dice == opponent_dice` in
`Game.display_help_table` (src/dice.py line 225) is object identity, which we
model with an explicit `oid` field. -/
structure DiceObj where
  oid : Nat
  die : Dice
deriving DecidableEq

/-- A cell of the winning-probabilities table built by
`Game.display_help_table` (src/dice.py lines 216-234): either the fixed
`"- (0.3333)"` marker or the formatted value of
`calculate_win_probability`. -/
inductive HelpCell where
  | diagonalMark
  | probability (p : ℚ)
deriving DecidableEq

/-- The cell of `Game.display_help_table` (src/dice.py lines 222-229) at row
`i`, column `j`: `"- (0.3333)"` when `user_dice == opponent_dice` (object
identity), the computed probability otherwise. -/
def help_table_cell (l : List DiceObj) (i j : Fin l.length) : HelpCell :=
  if (l.get i).oid = (l.get j).oid then .diagonalMark
  else .probability (calculate_win_probability (l.get i).die (l.get j).die)

/-- Each `Dice(values)` call in `parse_dice_configurations` constructs a
fresh object, so the entries of the game's dice list are pairwise distinct
objects: we assign consecutive object identities starting at `n`. -/
def withFreshOids : List Dice → Nat → List DiceObj
  | [], _ => []
  | d :: ds, n => ⟨n, d⟩ :: withFreshOids ds (n + 1)

/-- Python `arg.split(",")`: splits a character list at every comma; the
empty string yields `[""]`. -/
def splitOnComma : List Char → List (List Char)
  | [] => [[]]
  | c :: rest =>
      match splitOnComma rest with
      | [] => [[]]
      | group :: groups =>
          if c = ',' then [] :: group :: groups
          else (c :: group) :: groups

/-- The numeric value of a nonempty all-digit character list; `none`
otherwise. -/
def digitsVal (s : List Char) : Option Nat :=
  if s ≠ [] ∧ s.all Char.isDigit then
    some (s.foldl (fun acc c => acc * 10 + (c.toNat - 48)) 0)
  else none

/-- Python `int(x)` on a string: an optional sign followed by at least one
digit, `ValueError` (here `none`) otherwise.  (Python additionally strips
surrounding whitespace and allows underscores between digits; those inputs
parse to the same values or fail, which no claim here depends on.) -/
def parsePyInt : List Char → Option Int
  | '-' :: rest => (digitsVal rest).map (fun n => -(n : Int))
  | '+' :: rest => (digitsVal rest).map (fun n => (n : Int))
  | s => (digitsVal s).map (fun n => (n : Int))

/-- The list comprehension `[int(x) for x in arg.split(",")]`
(src/dice.py line 250): parses each field left to right, failing (raising
`ValueError`) at the first field `int` rejects. -/
def parse_int_list : List (List Char) → Option (List Int)
  | [] => some []
  | s :: rest =>
      match parsePyInt s, parse_int_list rest with
      | some v, some vs => some (v :: vs)
      | _, _ => none

/-- The per-argument body of the loop in `parse_dice_configurations`
(src/dice.py lines 248-253): `values = [int(x) for x in arg.split(",")]`
then `Dice(values)`, with both the `int` failure and the `Dice` constructor
failure caught and re-raised as a configuration error. -/
def parse_one_dice (arg : List Char) : Except String Dice :=
  match parse_int_list (splitOnComma arg) with
  | none => .error "Invalid dice configuration"
  | some values =>
      match Dice.init values with
      | .ok d => .ok d
      | .error e => .error ("Invalid dice configuration: " ++ e)

/-- The loop of `parse_dice_configurations` (src/dice.py lines 247-253):
parses the arguments in order, stopping at the first configuration error. -/
def parse_dice_list : List (List Char) → Except String (List Dice)
  | [] => .ok []
  | arg :: rest =>
      match parse_one_dice arg with
      | .error e => .error e
      | .ok d =>
          match parse_dice_list rest with
          | .error e => .error e
          | .ok ds => .ok (d :: ds)

/-- `parse_dice_configurations` (src/dice.py lines 242-254): requires at
least 3 arguments, then parses each in order, failing at the first malformed
one. -/
def parse_dice_configurations (args : List (List Char)) :
    Except String (List Dice) :=
  if args.length < 3 then .error "At least 3 dice configurations are required"
  else parse_dice_list args

/-- A well-formed die argument: it splits on commas into exactly 6 fields
each accepted by Python `int`. -/
def wellFormedArg (arg : List Char) : Prop :=
  ∃ vs, parse_int_list (splitOnComma arg) = some vs ∧ vs.length = 6

instance (arg : List Char) : Decidable (wellFormedArg arg) := by
  unfold wellFormedArg
  match h : parse_int_list (splitOnComma arg) with
  | none => exact .isFalse (by simp)
  | some vs =>
      exact decidable_of_iff (vs.length = 6) (by simp)

/-! ## Helper lemmas -/

/-- Filtering winning pairs with a fixed first component counts the beaten
opposing faces. -/
theorem length_filter_map_pair (v : Int) (ws : List Int) :
    ((ws.map (Prod.mk v)).filter (fun p => p.1 > p.2)).length =
    (ws.filter (fun v2 => v > v2)).length := by
  induction ws with
  | nil => rfl
  | cons w ws ihw =>
      by_cases h : v > w <;> simp [List.filter_cons, h, ihw]

/-- `winCount` counts exactly the ordered face pairs `(fa, fb)` with
`fa > fb`. -/
theorem winCount_eq_product_filter (vs ws : List Int) :
    winCount vs ws =
      ((vs.product ws).filter (fun p => p.1 > p.2)).length := by
  induction vs with
  | nil => rfl
  | cons v vs ih =>
      have hcons : (v :: vs).product ws = ws.map (Prod.mk v) ++ vs.product ws :=
        rfl
      rw [winCount, List.map_cons, List.sum_cons, hcons, List.filter_append,
        List.length_append, length_filter_map_pair, ← ih]
      rfl

/-- The win count never exceeds the number of ordered face pairs. -/
theorem winCount_le (vs ws : List Int) :
    winCount vs ws ≤ vs.length * ws.length := by
  induction vs with
  | nil => simp [winCount]
  | cons v vs ih =>
      simp only [winCount, List.map_cons, List.sum_cons, List.length_cons] at *
      have h := List.length_filter_le (fun v2 => v > v2) ws
      calc (ws.filter (fun v2 => v > v2)).length +
            (vs.map (fun v1 => (ws.filter (fun v2 => v1 > v2)).length)).sum
          ≤ ws.length + vs.length * ws.length := Nat.add_le_add h ih
        _ = (vs.length + 1) * ws.length := by ring

/-- `withFreshOids` keeps the list length. -/
theorem withFreshOids_length (ds : List Dice) (n : Nat) :
    (withFreshOids ds n).length = ds.length := by
  induction ds generalizing n with
  | nil => rfl
  | cons d ds ih => simp [withFreshOids, ih]

/-- The object identity of the `i`-th freshly constructed die is `n + i`:
in particular entries at distinct indices are distinct objects. -/
theorem withFreshOids_get_oid (ds : List Dice) (n : Nat)
    (i : Fin (withFreshOids ds n).length) :
    ((withFreshOids ds n).get i).oid = n + i.val := by
  induction ds generalizing n with
  | nil => exact absurd i.isLt (by simp [withFreshOids])
  | cons d ds ih =>
      match i with
      | ⟨0, h0⟩ => simp [withFreshOids]
      | ⟨k + 1, hk⟩ =>
          have hk2 : k < (withFreshOids ds (n + 1)).length := by
            have := hk
            simp only [withFreshOids, List.length_cons] at this
            omega
          have hrec := ih (n + 1) ⟨k, hk2⟩
          simp only [withFreshOids, List.get_cons_succ] at hrec ⊢
          omega

/-! ## Claims -/

/-- C1: for every range with `range_end >= range_start` (including the
degenerate case `range_start == range_end`),
`FairRandomGenerator.generate_random_value(range_start, range_end)` returns a
value within `[range_start, range_end]` inclusive (for every possible draw
`r` of `secrets.randbelow`, which guarantees `r < range_end - range_start + 1`). -/
theorem C1_generate_random_value_in_range
    (range_start range_end : Int) (r : Nat)
    (hrange : range_start ≤ range_end)
    (hr : (r : Int) < range_end - range_start + 1) :
    ∃ v, generate_random_value range_start range_end r = .ok v ∧
      range_start ≤ v ∧ v ≤ range_end := by
  have hn : ¬ (range_end - range_start + 1 ≤ 0) := by omega
  refine ⟨(r : Int) + range_start, ?_, by omega, by omega⟩
  simp [generate_random_value, randbelow, hn, Except.map]

/-- Witness for C1 at the degenerate range `[3, 3]` with draw `0`. -/
theorem C1_generate_random_value_in_range_witness :
    ∃ v, generate_random_value 3 3 0 = .ok v ∧ 3 ≤ v ∧ v ≤ 3 :=
  C1_generate_random_value_in_range 3 3 0 (by norm_num) (by norm_num)

/-- C2: commitment round-trip.  For every value, nonce and key, the digest
produced by `create_commitment` is the hash of the decimal string of the
value concatenated with the raw nonce bytes and the raw key bytes, and
`verify_commitment` accepts it.  `H` is the SHA3-256 hex-digest function,
over which the property holds uniformly. -/
theorem C2_commitment_round_trip (H : List Nat → String) (value : Int)
    (nonce key : List Nat) :
    (create_commitment H value nonce key).2.2 =
      H (decimalBytes value ++ nonce ++ key) ∧
    verify_commitment H value nonce key
      (create_commitment H value nonce key).2.2 = true :=
  ⟨rfl, by simp [verify_commitment, create_commitment, compare_digest]⟩

/-- C8: calling the generator with `range_end < range_start` raises
`ValueError` from `secrets.randbelow` (its argument is `≤ 0`): no value is
produced, so in particular no value from the silently reversed range. -/
theorem C8_reversed_range_is_error (range_start range_end : Int) (r : Nat)
    (h : range_end < range_start) :
    generate_random_value range_start range_end r =
      .error "Upper bound must be positive." ∧
    ∀ v, generate_random_value range_start range_end r ≠ .ok v := by
  have hn : range_end - range_start + 1 ≤ 0 := by omega
  constructor
  · simp [generate_random_value, randbelow, hn, Except.map]
  · intro v
    simp [generate_random_value, randbelow, hn, Except.map]

/-- Witness for C8 at the reversed range `[5, 3]`. -/
theorem C8_reversed_range_is_error_witness :
    generate_random_value 5 3 0 = .error "Upper bound must be positive." ∧
    ∀ v, generate_random_value 5 3 0 ≠ .ok v :=
  C8_reversed_range_is_error 5 3 0 (by norm_num)

/-- C3: for every pair of 6-face dice, `calculate_win_probability` equals
the number of ordered face pairs `(fa, fb)` with `fa > fb` divided by 36
(ties, having `fa = fb`, are excluded from the numerator by the strict
inequality), and the result lies in `[0, 1]`. -/
theorem C3_win_probability_exact (a b : Dice) :
    calculate_win_probability a b =
      (((a.values.product b.values).filter (fun p => p.1 > p.2)).length : ℚ) / 36 ∧
    0 ≤ calculate_win_probability a b ∧
    calculate_win_probability a b ≤ 1 := by
  have h36 : (a.values.length : ℚ) * (b.values.length : ℚ) = 36 := by
    rw [a.len6, b.len6]; norm_num
  have hcount : winCount a.values b.values ≤ 36 := by
    have h := winCount_le a.values b.values
    rw [a.len6, b.len6] at h
    omega
  refine ⟨?_, ?_, ?_⟩
  · rw [calculate_win_probability, h36, winCount_eq_product_filter]
  · rw [calculate_win_probability]
    positivity
  · rw [calculate_win_probability, h36, div_le_one (by norm_num)]
    exact_mod_cast hcount

/-- C6: the dice `A=[2,2,4,4,9,9]`, `B=[1,1,6,6,8,8]`, `C=[3,3,5,5,7,7]`
form a non-transitive cycle: A beats B, B beats C and C beats A, each with
probability above 1/2 (each is 20/36). -/
theorem C6_nontransitive_cycle :
    calculate_win_probability ⟨[2,2,4,4,9,9], rfl⟩ ⟨[1,1,6,6,8,8], rfl⟩ > 1/2 ∧
    calculate_win_probability ⟨[1,1,6,6,8,8], rfl⟩ ⟨[3,3,5,5,7,7], rfl⟩ > 1/2 ∧
    calculate_win_probability ⟨[3,3,5,5,7,7], rfl⟩ ⟨[2,2,4,4,9,9], rfl⟩ > 1/2 := by
  refine ⟨?_, ?_, ?_⟩ <;> norm_num [calculate_win_probability, winCount]

/-- C4 (failing input): with the first-mover commitment verified and the
user moving first, a failed verification of the user's roll commitment does
NOT abort the round: `user_turn` returns the sentinel `-1`
(src/dice.py line 141), `Game.play` proceeds, and `determine_winner(-1, 6)`
declares the computer the winner — winner determination is performed after a
detected fairness violation, contradicting the required round abort.  (The
first-mover verification point does abort: line 86.) -/
theorem C4_roll_verification_failure_still_decides :
    play { first_player := 0, fmVerifyOk := true, user_guess := 0,
           userDie := ⟨[2, 2, 4, 4, 9, 9], rfl⟩, userRoll := 0,
           userVerifyOk := false,
           compDie := ⟨[1, 1, 6, 6, 8, 8], rfl⟩, compRoll := 2,
           compVerifyOk := true } =
      .decided .computerWins ∧
    play { first_player := 0, fmVerifyOk := true, user_guess := 0,
           userDie := ⟨[2, 2, 4, 4, 9, 9], rfl⟩, userRoll := 0,
           userVerifyOk := false,
           compDie := ⟨[1, 1, 6, 6, 8, 8], rfl⟩, compRoll := 2,
           compVerifyOk := true } ≠
      .aborted := by
  constructor
  · rfl
  · intro h
    simp [play, turn_value, determine_winner] at h

/-- The game's dice list for the C5 counterexample: the first two dice have
identical face configurations but, being constructed by separate `Dice(...)`
calls, are distinct objects. -/
def dupDiceObjs : List DiceObj :=
  withFreshOids
    [⟨[1, 2, 3, 4, 5, 6], rfl⟩, ⟨[1, 2, 3, 4, 5, 6], rfl⟩,
     ⟨[2, 2, 4, 4, 9, 9], rfl⟩] 0

/-- C5 (counterexample): two distinct dice with identical face
configurations do NOT get the fixed `0.3333` diagonal marker.  `Dice`
defines no `__eq__`, so `user_dice == opponent_dice` is object identity; the
cell for the two identically configured dice shows the computed probability
(here 15/36) instead. -/
theorem C5_identical_configs_counterexample :
    ∃ (h0 : 0 < dupDiceObjs.length) (h1 : 1 < dupDiceObjs.length),
      (dupDiceObjs.get ⟨0, h0⟩).die.values =
        (dupDiceObjs.get ⟨1, h1⟩).die.values ∧
      help_table_cell dupDiceObjs ⟨0, h0⟩ ⟨1, h1⟩ ≠ .diagonalMark ∧
      help_table_cell dupDiceObjs ⟨0, h0⟩ ⟨1, h1⟩ =
        .probability (calculate_win_probability
          (dupDiceObjs.get ⟨0, h0⟩).die (dupDiceObjs.get ⟨1, h1⟩).die) := by
  refine ⟨by decide, by decide, rfl, ?_, rfl⟩
  intro h
  simp [help_table_cell, dupDiceObjs, withFreshOids] at h

/-- C5 (amended): in the table built over the game's freshly constructed
dice list, the fixed `0.3333` marker appears exactly on the diagonal (a die
compared against itself, i.e. the same object); every other cell — including
pairs of distinct dice with identical configurations — shows the computed
win probability. -/
theorem C5_diagonal_marker_iff_same_object (ds : List Dice)
    (i j : Fin (withFreshOids ds 0).length) :
    help_table_cell (withFreshOids ds 0) i j =
      if i = j then .diagonalMark
      else .probability (calculate_win_probability
        ((withFreshOids ds 0).get i).die ((withFreshOids ds 0).get j).die) := by
  rw [help_table_cell, withFreshOids_get_oid, withFreshOids_get_oid]
  by_cases h : i = j
  · subst h
    simp
  · rw [if_neg (fun hc => h (Fin.ext (by omega))), if_neg h]

/-- C7: mutual exclusion of die selection.  (1) `get_user_dice_choice` never
returns the excluded index, for any input stream; (2) entering the excluded
die (1-based input `excluded + 1`) is rejected and the user is re-prompted —
the loop continues on the remaining inputs, nothing is silently corrected;
(3) every index the computer can draw from `available_indices` differs from
the excluded one. -/
theorem C7_excluded_die_never_selected :
    (∀ (diceLen : Nat) (excluded : Int) (inputs : List UserInput) (i : Int),
        get_user_dice_choice diceLen (some excluded) inputs = some i →
          i ≠ excluded) ∧
    (∀ (diceLen : Nat) (excluded : Int) (rest : List UserInput),
        get_user_dice_choice diceLen (some excluded)
            (.num (excluded + 1) :: rest) =
          get_user_dice_choice diceLen (some excluded) rest) ∧
    (∀ (diceLen : Nat) (excluded : Int) (k : Nat)
        (hk : k < (available_indices diceLen (some excluded)).length),
        ((available_indices diceLen (some excluded)).get ⟨k, hk⟩ : Int) ≠
          excluded) := by
  refine ⟨?_, ?_, ?_⟩
  · intro diceLen excluded inputs
    induction inputs with
    | nil => intro i h; exact absurd h (by simp [get_user_dice_choice])
    | cons t rest ih =>
        intro i h
        cases t with
        | exit => exact absurd h (by simp [get_user_dice_choice])
        | help => exact ih i h
        | invalid => exact ih i h
        | num n =>
            simp only [get_user_dice_choice] at h
            split at h
            · exact ih i h
            · split at h
              · next hne hin =>
                  cases h
                  intro heq
                  exact hne (by rw [heq])
              · exact ih i h
  · intro diceLen excluded rest
    have hc : (excluded + 1 - 1 : Int) = excluded := by ring
    simp [get_user_dice_choice, hc]
  · intro diceLen excluded k hk
    have hmem := List.get_mem (available_indices diceLen (some excluded)) k hk
    unfold available_indices at hmem
    have hp := List.of_mem_filter hmem
    simp only [decide_eq_true_eq] at hp
    intro heq
    unfold available_indices at heq
    exact hp (by rw [heq])

/-- Witness for C7: with 3 dice and die index 0 excluded, the input stream
`[num 1, num 2]` first re-selects the excluded die (rejected, re-prompted)
and then selects die index 1 ≠ 0; the computer's first available index also
differs from 0. -/
theorem C7_excluded_die_never_selected_witness :
    (1 : Int) ≠ 0 ∧
    get_user_dice_choice 3 (some 0) [UserInput.num 1, UserInput.num 2] =
      get_user_dice_choice 3 (some 0) [UserInput.num 2] ∧
    ((available_indices 3 (some 0)).get ⟨0, by decide⟩ : Int) ≠ 0 :=
  ⟨C7_excluded_die_never_selected.1 3 0 [UserInput.num 2] 1 (by decide),
   C7_excluded_die_never_selected.2.1 3 0 [UserInput.num 2],
   C7_excluded_die_never_selected.2.2 3 0 0 (by decide)⟩

/-- C10: in both turns the roll is drawn over the range `[0, 5]`
(`generate_random_value 0 5`, so `secrets.randbelow 6` guarantees a draw
`r < 6`), the returned value is nonnegative, and as a 0-based index it is
in bounds for every die satisfying the 6-face invariant; the face lookup in
the turn is exactly the checked list indexing at that roll. -/
theorem C10_roll_index_in_bounds (d : Dice) (r : Nat) (h : r < 6) :
    ∃ v, generate_random_value 0 5 r = .ok v ∧ 0 ≤ v ∧
      v.toNat < d.values.length ∧
      turn_value d ⟨r, h⟩ true = d.values.get ⟨r, by rw [d.len6]; exact h⟩ := by
  have hn : ¬ ((5 : Int) - 0 + 1 ≤ 0) := by norm_num
  refine ⟨(r : Int) + 0, ?_, by positivity, ?_, rfl⟩
  · simp [generate_random_value, randbelow, hn, Except.map]
  · rw [d.len6]
    omega

/-- Witness for C10 at the standard die and the maximal roll `5`. -/
theorem C10_roll_index_in_bounds_witness :
    ∃ v, generate_random_value 0 5 5 = .ok v ∧ 0 ≤ v ∧
      v.toNat < (⟨[1, 2, 3, 4, 5, 6], rfl⟩ : Dice).values.length ∧
      turn_value ⟨[1, 2, 3, 4, 5, 6], rfl⟩ ⟨5, by decide⟩ true =
        (⟨[1, 2, 3, 4, 5, 6], rfl⟩ : Dice).values.get ⟨5, by decide⟩ :=
  C10_roll_index_in_bounds ⟨[1, 2, 3, 4, 5, 6], rfl⟩ 5 (by decide)

/-- A malformed die argument makes `parse_one_dice` fail with a
configuration error. -/
theorem parse_one_dice_error_of_not_wellFormed (arg : List Char)
    (h : ¬ wellFormedArg arg) : ∃ e, parse_one_dice arg = .error e := by
  cases hp : parse_int_list (splitOnComma arg) with
  | none => exact ⟨"Invalid dice configuration", by simp [parse_one_dice, hp]⟩
  | some vs =>
      have hlen : ¬ vs.length = 6 := fun hl => h ⟨vs, hp, hl⟩
      exact ⟨"Invalid dice configuration: Each die must have exactly 6 values",
        by simp [parse_one_dice, hp, Dice.init, hlen]⟩

/-- A malformed argument anywhere in the list makes the parsing loop fail. -/
theorem parse_dice_list_error_of_mem (args : List (List Char))
    (arg : List Char) (ha : arg ∈ args) (h : ¬ wellFormedArg arg) :
    ∃ e, parse_dice_list args = .error e := by
  induction args with
  | nil => cases ha
  | cons b rest ih =>
      cases hb : parse_one_dice b with
      | error e => exact ⟨e, by simp [parse_dice_list, hb]⟩
      | ok d =>
          rcases List.mem_cons.mp ha with hba | hmem
          · obtain ⟨e, he⟩ := parse_one_dice_error_of_not_wellFormed arg h
            rw [← hba, he] at hb
            cases hb
          · obtain ⟨e, he⟩ := ih hmem
            exact ⟨e, by simp [parse_dice_list, hb, he]⟩

/-- C9: `parse_dice_configurations` yields an explicit configuration error
whenever fewer than 3 arguments are supplied or some argument is not a
comma-separated list of exactly 6 signed integers; on success at least 3
arguments were given and every parsed die has exactly 6 integer faces. -/
theorem C9_parse_validation (args : List (List Char)) :
    (args.length < 3 → ∃ e, parse_dice_configurations args = .error e) ∧
    ((∃ arg ∈ args, ¬ wellFormedArg arg) →
      ∃ e, parse_dice_configurations args = .error e) ∧
    (∀ ds, parse_dice_configurations args = .ok ds →
      3 ≤ args.length ∧ ∀ d ∈ ds, d.values.length = 6) := by
  refine ⟨?_, ?_, ?_⟩
  · intro h
    exact ⟨"At least 3 dice configurations are required",
      by simp [parse_dice_configurations, h]⟩
  · rintro ⟨arg, hmem, hbad⟩
    by_cases hlen : args.length < 3
    · exact ⟨"At least 3 dice configurations are required",
        by simp [parse_dice_configurations, hlen]⟩
    · obtain ⟨e, he⟩ := parse_dice_list_error_of_mem args arg hmem hbad
      exact ⟨e, by simp [parse_dice_configurations, hlen, he]⟩
  · intro ds hok
    rw [parse_dice_configurations] at hok
    by_cases hlen : args.length < 3
    · rw [if_pos hlen] at hok
      cases hok
    · exact ⟨by omega, fun d _ => d.len6⟩

/-- Witness for C9: too few arguments error out; a 2-face die among three
arguments errors out; three well-formed arguments parse to three 6-face
dice. -/
theorem C9_parse_validation_witness :
    (∃ e, parse_dice_configurations [] = .error e) ∧
    (∃ e, parse_dice_configurations
        ["1,2".toList, "1,2,3,4,5,6".toList, "1,2,3,4,5,6".toList] =
          .error e) ∧
    (3 ≤ (["2,2,4,4,9,9".toList, "6,8,1,1,8,6".toList,
            "7,5,3,7,5,3".toList] : List (List Char)).length ∧
      ∀ d ∈ ([⟨[2, 2, 4, 4, 9, 9], rfl⟩, ⟨[6, 8, 1, 1, 8, 6], rfl⟩,
              ⟨[7, 5, 3, 7, 5, 3], rfl⟩] : List Dice),
        d.values.length = 6) :=
  ⟨(C9_parse_validation []).1 (by decide),
   (C9_parse_validation _).2.1 ⟨"1,2".toList, by decide, by decide⟩,
   (C9_parse_validation _).2.2 _ rfl⟩

end DiceGame
